import Mathlib

/-!
# Livestream overlay editor: a shallow embedding of `App.jsx`

The React component `App` of `src/frontend/livestream-overlay/src/App.jsx`
keeps an ordered list of overlays, a selection, a loading flag and a stream
status.  Every handler of the component is translated to a pure function on
that state which also returns the remote calls (`fetch`) the handler issues.

Conventions of the embedding.

* Pixel coordinates and sizes are integers (`Int`); pointer coordinates are
  far below `2^53`, where the arithmetic of JavaScript numbers is exact.
* An identifier is a `String`; `null` / `undefined` is `none`.  The tests
  `if (id)` and `if (!selectedId)` are JavaScript truthiness tests: a string
  is truthy exactly when it is not empty.
* The outcome of a network call (resolved id, rejection, the answer of
  `window.confirm`) is an input of the handler that awaits it.  A handler
  runs as one atomic step: interleavings during an `await` are not modelled.
* The updater that `onMouseUp` passes to `setOverlays` issues its `PUT` as a
  side effect, and React may run a state updater more than once, also on a
  store it rendered earlier.  The stores of those additional runs are an input
  of the pointer-up event (`reruns`); the state is the result of the run on
  the current store.  All other updaters are pure, so that running them again
  changes nothing.
-/

namespace OverlayApp

/-! ## Data model -/

/-- Pixel offset of an overlay from the container origin (`position: { x, y }`). -/
structure Position where
  x : Int
  y : Int
  deriving DecidableEq, Repr

/-- Pixel extent of an overlay (`size: { width, height }`). -/
structure Size where
  width : Int
  height : Int
  deriving DecidableEq, Repr

/-- An overlay object as stored in the `overlays` state of `App`. -/
structure Overlay where
  id : String
  type : String
  content : String
  position : Position
  size : Size
  persisted : Bool
  deriving DecidableEq, Repr

/-- A record of `GET /overlays` before normalisation; an absent field is `none`. -/
structure RawOverlay where
  _id : String
  type : Option String
  content : Option String
  position : Option Position
  size : Option Size
  deriving DecidableEq, Repr

/-- The object sent by `createOverlayInDB` (`POST /overlays`). -/
structure CreatePayload where
  type : String
  content : String
  position : Position
  size : Size
  deriving DecidableEq, Repr

/-- The object sent by `updateOverlayInDB`: each call site sends one field. -/
inductive UpdateData where
  | position (p : Position)
  | size (s : Size)
  | content (c : String)
  deriving DecidableEq, Repr

/-- A remote call issued through `fetch`. -/
inductive Call where
  | post (payload : CreatePayload)
  | put (id : String) (data : UpdateData)
  | delete (id : String)
  deriving DecidableEq, Repr

/-- The three values `streamStatus` takes. -/
inductive StreamStatus where
  | connecting
  | live
  | error
  deriving DecidableEq, Repr

/-- The coordinates read from a mouse event (`clientX`, `clientY`). -/
structure PointerEvent where
  clientX : Int
  clientY : Int
  deriving DecidableEq, Repr

/-- The values captured by the `onMouseMove` / `onMouseUp` closures that a
pointer-down installs on `document`. -/
inductive Gesture where
  | drag (id : String) (startX startY : Int)
  | resize (id : String) (sx sy sw sh : Int)
  deriving DecidableEq, Repr

/-- The state of the component together with the installed document listeners. -/
structure State where
  overlays : List Overlay
  selectedId : Option String
  isLoading : Bool
  streamStatus : StreamStatus
  listeners : List Gesture
  deriving DecidableEq, Repr

/-- The state after the `useState` initialisers. -/
def State.init : State :=
  { overlays := [], selectedId := none, isLoading := true,
    streamStatus := StreamStatus.connecting, listeners := [] }

/-- JavaScript truthiness of a string. -/
def truthy (s : String) : Bool := s != ""

/-- The lookup `overlays.find((o) => o.id === id)`. -/
def findOverlay (overlays : List Overlay) (id : String) : Option Overlay :=
  overlays.find? (fun o => o.id == id)

/-- The ids of the overlays of a store, in order. -/
def ids (overlays : List Overlay) : List String := overlays.map (fun o => o.id)

/-! ## Drag and resize -/

/-- The function `handleDrag(id, e)`: selects `id`, and when the overlay is
found installs listeners anchored at the pointer offset from its position. -/
def handleDrag (st : State) (id : String) (e : PointerEvent) : State :=
  let st1 := { st with selectedId := some id }
  match findOverlay st.overlays id with
  | none => st1
  | some overlay =>
    { st1 with listeners := st1.listeners ++
        [Gesture.drag id (e.clientX - overlay.position.x) (e.clientY - overlay.position.y)] }

/-- The function `handleResize(id, e)`: when the overlay is found installs
listeners anchored at the pointer and at the overlay size. -/
def handleResize (st : State) (id : String) (e : PointerEvent) : State :=
  match findOverlay st.overlays id with
  | none => st
  | some overlay =>
    { st with listeners := st.listeners ++
        [Gesture.resize id e.clientX e.clientY overlay.size.width overlay.size.height] }

/-- The updater that `onMouseMove` passes to `setOverlays`, for either gesture. -/
def onMouseMove (g : Gesture) (ev : PointerEvent) (prev : List Overlay) : List Overlay :=
  match g with
  | Gesture.drag id startX startY =>
    prev.map (fun o =>
      if o.id = id then
        { o with position := { x := max 0 (ev.clientX - startX), y := max 0 (ev.clientY - startY) } }
      else o)
  | Gesture.resize id sx sy sw sh =>
    prev.map (fun o =>
      if o.id = id then
        { o with size := { width := max 50 (sw + (ev.clientX - sx)),
                           height := max 30 (sh + (ev.clientY - sy)) } }
      else o)

/-- One run of the updater that `onMouseUp` passes to `setOverlays`: it returns
`prev` and, when the overlay is found and persisted, issues one `PUT`. -/
def onMouseUp (g : Gesture) (prev : List Overlay) : List Overlay × List Call :=
  match g with
  | Gesture.drag id _ _ =>
    match findOverlay prev id with
    | some updated =>
      if updated.persisted then (prev, [Call.put id (UpdateData.position updated.position)])
      else (prev, [])
    | none => (prev, [])
  | Gesture.resize id _ _ _ _ =>
    match findOverlay prev id with
    | some updated =>
      if updated.persisted then (prev, [Call.put id (UpdateData.size updated.size)])
      else (prev, [])
    | none => (prev, [])

/-! ## Initial load -/

/-- The mapping applied to each record of `GET /overlays`: `a || b` takes
`b` when `a` is absent or falsy (the empty string). -/
def normalize (overlay : RawOverlay) : Overlay :=
  { id := overlay._id
    type := match overlay.type with
      | some t => if truthy t then t else "text"
      | none => "text"
    content := match overlay.content with
      | some c => c
      | none => ""
    position := match overlay.position with
      | some p => p
      | none => { x := 50, y := 50 }
    size := match overlay.size with
      | some s => s
      | none => { width := 180, height := 50 }
    persisted := true }

/-- The `.then` branch of the initial fetch of the overlay list. -/
def overlaysLoaded (st : State) (data : List RawOverlay) : State :=
  { st with overlays := data.map normalize, isLoading := false }

/-- The `.catch` branch of the initial fetch of the overlay list. -/
def overlaysLoadFailed (st : State) : State :=
  { st with isLoading := false }

/-! ## Backend operations and the add / delete handlers -/

/-- The function `createOverlayInDB(payload)`: one `POST`; the result is the
`id` of the response, or `null` (`none`) when the call throws. -/
def createOverlayInDB (payload : CreatePayload) (response : Option String) :
    Option String × List Call :=
  (response, [Call.post payload])

/-- The shared tail of both add handlers: append and select when `id` is truthy. -/
def addCreated (st : State) (payload : CreatePayload) (response : Option String) :
    State × List Call :=
  let r := createOverlayInDB payload response
  match r.1 with
  | some id =>
    if truthy id then
      ({ st with
          overlays := st.overlays ++
            [{ id := id, type := payload.type, content := payload.content,
               position := payload.position, size := payload.size, persisted := true }]
          selectedId := some id }, r.2)
    else (st, r.2)
  | none => (st, r.2)

/-- The payload built by `addTextOverlay`. -/
def textPayload : CreatePayload :=
  { type := "text", content := "New Text Overlay",
    position := { x := 50, y := 50 }, size := { width := 180, height := 50 } }

/-- The function `addTextOverlay()`. -/
def addTextOverlay (st : State) (response : Option String) : State × List Call :=
  addCreated st textPayload response

/-- The payload built by `handleImageUpload` for the object URL of the file. -/
def imagePayload (url : String) : CreatePayload :=
  { type := "image", content := url,
    position := { x := 60, y := 60 }, size := { width := 150, height := 150 } }

/-- The function `handleImageUpload(e)`; `file` is the object URL created
for `e.target.files[0]`, `none` when no file was chosen. -/
def handleImageUpload (st : State) (file : Option String) (response : Option String) :
    State × List Call :=
  match file with
  | none => (st, [])
  | some url => addCreated st (imagePayload url) response

/-- The function `deleteSelected()`; `ok` tells whether the awaited `fetch`
resolved (otherwise the `catch` branch runs). -/
def deleteSelected (st : State) (ok : Bool) : State × List Call :=
  match st.selectedId with
  | none => (st, [])
  | some sid =>
    if truthy sid then
      if ok then
        ({ st with overlays := st.overlays.filter (fun o => o.id != sid), selectedId := none },
          [Call.delete sid])
      else (st, [Call.delete sid])
    else (st, [])

/-- The function `resetAllOverlays()`; `confirmed` is the answer of
`window.confirm`, `ok` tells whether `Promise.all` resolved. -/
def resetAllOverlays (st : State) (confirmed ok : Bool) : State × List Call :=
  if confirmed then
    let calls := st.overlays.map (fun o => Call.delete o.id)
    if ok then ({ st with overlays := [], selectedId := none }, calls)
    else (st, calls)
  else (st, [])

/-! ## Inline text editor -/

/-- The value `selectedOverlay` computed on every render. -/
def selectedOverlay (st : State) : Option Overlay :=
  match st.selectedId with
  | some sid => findOverlay st.overlays sid
  | none => none

/-- The `onChange` handler of the text input, which is rendered only when
`selectedOverlay?.type === "text"`. -/
def onChangeText (st : State) (value : String) : State × List Call :=
  match st.selectedId with
  | none => (st, [])
  | some sid =>
    match selectedOverlay st with
    | none => (st, [])
    | some so =>
      if so.type = "text" then
        let edited := st.overlays.map (fun o => if o.id = sid then { o with content := value } else o)
        ({ st with overlays := edited }, [Call.put sid (UpdateData.content value)])
      else (st, [])

/-! ## Stream status -/

/-- The events of the HLS client that the component subscribes to. -/
inductive HlsEvent where
  | manifestParsed
  | error (fatal : Bool)
  deriving DecidableEq, Repr

/-- The two handlers registered with `hls.on`, as a transition function. -/
def onHlsEvent (s : StreamStatus) (e : HlsEvent) : StreamStatus :=
  match e with
  | HlsEvent.manifestParsed => StreamStatus.live
  | HlsEvent.error fatal => if fatal then StreamStatus.error else s

/-- The stream status after a sequence of HLS events. -/
def runHls (s : StreamStatus) (es : List HlsEvent) : StreamStatus :=
  es.foldl onHlsEvent s

/-! ## The component as a transition system -/

/-- Everything the component reacts to. -/
inductive Event where
  | overlaysLoaded (data : List RawOverlay)
  | overlaysLoadFailed
  | nativeAttach
  | hls (e : HlsEvent)
  | addText (response : Option String)
  | imageUpload (file : Option String) (response : Option String)
  | deleteSelected (ok : Bool)
  | resetAll (confirmed ok : Bool)
  | mouseDownOverlay (id : String) (e : PointerEvent)
  | mouseDownHandle (id : String) (e : PointerEvent)
  | mouseMove (ev : PointerEvent)
  | mouseUp (reruns : List (List Overlay))
  | textChange (value : String)
  deriving DecidableEq, Repr

/-- A `mousemove` on `document`: every installed `onMouseMove` runs, in
installation order. -/
def mouseMoveAll (listeners : List Gesture) (ev : PointerEvent) (prev : List Overlay) :
    List Overlay :=
  listeners.foldl (fun ovs g => onMouseMove g ev ovs) prev

/-- The calls issued by the additional runs of one pointer-up updater, one run
for each store of `reruns`; the stores these runs return are discarded. -/
def rerunCalls (g : Gesture) : List (List Overlay) → List Call
  | [] => []
  | s :: ss => (onMouseUp g s).2 ++ rerunCalls g ss

/-- All runs of the updater of one `onMouseUp`: the additional runs, then the
run on the current store, whose result is the next store. -/
def onMouseUpRuns (g : Gesture) (reruns : List (List Overlay)) (prev : List Overlay) :
    List Overlay × List Call :=
  ((onMouseUp g prev).1, rerunCalls g reruns ++ (onMouseUp g prev).2)

/-- A `mouseup` on `document`: every installed `onMouseUp` runs, in
installation order. -/
def mouseUpAll (listeners : List Gesture) (reruns : List (List Overlay))
    (prev : List Overlay) : List Overlay × List Call :=
  match listeners with
  | [] => (prev, [])
  | g :: gs =>
    ((mouseUpAll gs reruns (onMouseUpRuns g reruns prev).1).1,
      (onMouseUpRuns g reruns prev).2 ++ (mouseUpAll gs reruns (onMouseUpRuns g reruns prev).1).2)

/-- One reaction of the component: the next state and the remote calls issued. -/
def step (st : State) (ev : Event) : State × List Call :=
  match ev with
  | Event.overlaysLoaded data => (overlaysLoaded st data, [])
  | Event.overlaysLoadFailed => (overlaysLoadFailed st, [])
  | Event.nativeAttach => ({ st with streamStatus := StreamStatus.live }, [])
  | Event.hls e => ({ st with streamStatus := onHlsEvent st.streamStatus e }, [])
  | Event.addText response => addTextOverlay st response
  | Event.imageUpload file response => handleImageUpload st file response
  | Event.deleteSelected ok => deleteSelected st ok
  | Event.resetAll confirmed ok => resetAllOverlays st confirmed ok
  | Event.mouseDownOverlay id e => (handleDrag st id e, [])
  | Event.mouseDownHandle id e => (handleResize st id e, [])
  | Event.mouseMove e => ({ st with overlays := mouseMoveAll st.listeners e st.overlays }, [])
  | Event.mouseUp reruns =>
    ({ st with overlays := (mouseUpAll st.listeners reruns st.overlays).1, listeners := [] },
      (mouseUpAll st.listeners reruns st.overlays).2)
  | Event.textChange value => onChangeText st value

/-- The state after a sequence of events and all remote calls issued on the way. -/
def run (st : State) : List Event → State × List Call
  | [] => (st, [])
  | ev :: evs => ((run (step st ev).1 evs).1, (step st ev).2 ++ (run (step st ev).1 evs).2)

/-- The states the component can be in: those reached from `State.init`. -/
def Reachable (st : State) : Prop := ∃ evs, (run State.init evs).1 = st

/-- The overlay a remote update or delete call is addressed to. -/
def Call.target : Call → Option String
  | Call.post _ => none
  | Call.put id _ => some id
  | Call.delete id => some id

/-- The add and delete operations among the events. -/
def Event.isAddOrDelete : Event → Bool
  | Event.addText _ => true
  | Event.imageUpload _ _ => true
  | Event.deleteSelected _ => true
  | Event.resetAll _ _ => true
  | _ => false

/-- The id an add event appends to the store, if it appends one. -/
def Event.appendedId : Event → Option String
  | Event.addText (some id) => if truthy id then some id else none
  | Event.imageUpload (some _) (some id) => if truthy id then some id else none
  | _ => none

/-- The ids appended by the add events of a sequence, in order. -/
def appendedIds (evs : List Event) : List String :=
  evs.filterMap Event.appendedId

/-! ## Scenario data -/

/-- A persisted text overlay at position (100, 100) with size (180, 50). -/
def sampleOverlay : Overlay :=
  { id := "a", type := "text", content := "hi",
    position := { x := 100, y := 100 }, size := { width := 180, height := 50 },
    persisted := true }

/-- The idle state whose store holds `sampleOverlay` only. -/
def sampleState : State := { State.init with overlays := [sampleOverlay] }

/-- Three records as `GET /overlays` may deliver them. -/
def sampleRecords : List RawOverlay :=
  [ { _id := "a", type := some "text", content := some "one", position := none, size := none },
    { _id := "b", type := none, content := none,
      position := some { x := 10, y := 20 }, size := none },
    { _id := "c", type := some "image", content := some "blob:c",
      position := none, size := some { width := 150, height := 150 } } ]

/-- The state after loading `sampleRecords`: a store of three overlays. -/
def threeOverlays : State := overlaysLoaded State.init sampleRecords

/-- The state after the load and a pointer-down on overlay "a". -/
def selectedLoaded : State :=
  (run State.init [Event.overlaysLoaded sampleRecords, Event.mouseDownOverlay "a" ⟨0, 0⟩]).1

/-- The record of `GET /overlays` that normalises to `sampleOverlay`. -/
def sampleRecord : RawOverlay :=
  { _id := "a", type := some "text", content := some "hi",
    position := some { x := 100, y := 100 }, size := some { width := 180, height := 50 } }

/-- The state after loading `sampleRecord`, a pointer-down on the overlay at
(110, 110) and a move to (160, 140): the pointer-up is still to come. -/
def draggedSample : State :=
  (run State.init
    [Event.overlaysLoaded [sampleRecord], Event.mouseDownOverlay "a" ⟨110, 110⟩,
     Event.mouseMove ⟨160, 140⟩]).1

/-- A text overlay with `persisted = false`; no handler produces one. -/
def unpersistedOverlay : Overlay :=
  { id := "u", type := "text", content := "draft",
    position := { x := 0, y := 0 }, size := { width := 60, height := 40 },
    persisted := false }

/-- A store holding `unpersistedOverlay` only. -/
def unpersistedState : State := { State.init with overlays := [unpersistedOverlay] }

/-! ## Lookup lemmas -/

theorem findOverlay_map (f : Overlay → Overlay) (hf : ∀ p, (f p).id = p.id)
    (l : List Overlay) (id : String) :
    findOverlay (l.map f) id = (findOverlay l id).map f := by
  induction l with
  | nil => rfl
  | cons a t ih =>
    unfold findOverlay at ih ⊢
    simp only [List.map_cons, List.find?_cons, hf]
    cases h : (a.id == id) with
    | true => simp
    | false => simpa using ih

theorem findOverlay_some_id {l : List Overlay} {id : String} {o : Overlay}
    (h : findOverlay l id = some o) : o.id = id := by
  unfold findOverlay at h
  have := List.find?_some h
  simpa using this

theorem findOverlay_mem {l : List Overlay} {id : String} {o : Overlay}
    (h : findOverlay l id = some o) : o ∈ l := by
  unfold findOverlay at h
  exact List.mem_of_find?_eq_some h

/-! ## Drag and resize geometry -/

/-- C1: when `handleDrag(id, e)` finds the overlay `o` at position `(px, py)`, the
`onMouseMove` handler it installs maps every overlay carrying `id` to position
`(max 0 (px + x1 - x0), max 0 (py + y1 - y0))` and leaves the others alone, in
every store it is applied to; in the store of the pointer-down the dragged
overlay is `o` at that position, and neither coordinate is ever negative. -/
theorem handleDrag_move_position (st : State) (id : String) (o : Overlay)
    (e ev : PointerEvent) (prev : List Overlay)
    (hfind : findOverlay st.overlays id = some o) :
    (handleDrag st id e).listeners = st.listeners ++
        [Gesture.drag id (e.clientX - o.position.x) (e.clientY - o.position.y)] ∧
    onMouseMove (Gesture.drag id (e.clientX - o.position.x) (e.clientY - o.position.y)) ev prev
      = prev.map (fun p =>
          if p.id = id then
            { p with position := { x := max 0 (o.position.x + ev.clientX - e.clientX),
                                   y := max 0 (o.position.y + ev.clientY - e.clientY) } }
          else p) ∧
    findOverlay (onMouseMove
        (Gesture.drag id (e.clientX - o.position.x) (e.clientY - o.position.y)) ev st.overlays) id
      = some { o with position := { x := max 0 (o.position.x + ev.clientX - e.clientX),
                                    y := max 0 (o.position.y + ev.clientY - e.clientY) } } ∧
    (∀ p ∈ onMouseMove
        (Gesture.drag id (e.clientX - o.position.x) (e.clientY - o.position.y)) ev prev,
      p.id = id → 0 ≤ p.position.x ∧ 0 ≤ p.position.y) := by
  have hx : ev.clientX - (e.clientX - o.position.x) = o.position.x + ev.clientX - e.clientX := by
    omega
  have hy : ev.clientY - (e.clientY - o.position.y) = o.position.y + ev.clientY - e.clientY := by
    omega
  have hmove : ∀ l : List Overlay,
      onMouseMove (Gesture.drag id (e.clientX - o.position.x) (e.clientY - o.position.y)) ev l
        = l.map (fun p =>
          if p.id = id then
            { p with position := { x := max 0 (o.position.x + ev.clientX - e.clientX),
                                   y := max 0 (o.position.y + ev.clientY - e.clientY) } }
          else p) := by
    intro l
    simp only [onMouseMove, hx, hy]
  refine ⟨?_, hmove prev, ?_, ?_⟩
  · simp [handleDrag, hfind]
  · rw [hmove, findOverlay_map _ _ _ _, hfind]
    · simp [findOverlay_some_id hfind]
    · intro p
      by_cases hp : p.id = id <;> simp [hp]
  · intro p hp hid
    rw [hmove] at hp
    obtain ⟨q, _, rfl⟩ := List.mem_map.1 hp
    by_cases hq : q.id = id
    · simp [hq]
    · simp [hq] at hid

/-- Scenario of C1: the overlay at (100, 100), pointer down at (110, 110) and
moved to (160, 140), ends at (150, 130). -/
theorem handleDrag_move_position_witness :
    findOverlay sampleState.overlays "a" = some sampleOverlay ∧
    findOverlay (onMouseMove (Gesture.drag "a" (110 - 100) (110 - 100)) ⟨160, 140⟩
        sampleState.overlays) "a"
      = some { sampleOverlay with position := { x := 150, y := 130 } } :=
  ⟨by decide,
    (handleDrag_move_position sampleState "a" sampleOverlay ⟨110, 110⟩ ⟨160, 140⟩ []
      (by decide)).2.2.1⟩

/-- C2: when `handleResize(id, e)` finds the overlay `o` of size `(w, h)`, the
`onMouseMove` handler it installs maps every overlay carrying `id` to size
`(max 50 (w + dx), max 30 (h + dy))` for the pointer delta `(dx, dy)` and leaves
the others alone, so the width it produces is at least 50 and the height at
least 30 whatever the delta. -/
theorem handleResize_move_size (st : State) (id : String) (o : Overlay)
    (e ev : PointerEvent) (prev : List Overlay)
    (hfind : findOverlay st.overlays id = some o) :
    (handleResize st id e).listeners = st.listeners ++
        [Gesture.resize id e.clientX e.clientY o.size.width o.size.height] ∧
    onMouseMove (Gesture.resize id e.clientX e.clientY o.size.width o.size.height) ev prev
      = prev.map (fun p =>
          if p.id = id then
            { p with size := { width := max 50 (o.size.width + (ev.clientX - e.clientX)),
                               height := max 30 (o.size.height + (ev.clientY - e.clientY)) } }
          else p) ∧
    findOverlay (onMouseMove
        (Gesture.resize id e.clientX e.clientY o.size.width o.size.height) ev st.overlays) id
      = some { o with size := { width := max 50 (o.size.width + (ev.clientX - e.clientX)),
                                height := max 30 (o.size.height + (ev.clientY - e.clientY)) } } ∧
    (∀ p ∈ onMouseMove
        (Gesture.resize id e.clientX e.clientY o.size.width o.size.height) ev prev,
      p.id = id → 50 ≤ p.size.width ∧ 30 ≤ p.size.height) := by
  refine ⟨?_, rfl, ?_, ?_⟩
  · simp [handleResize, hfind]
  · unfold onMouseMove
    rw [findOverlay_map _ _ _ _, hfind]
    · simp [findOverlay_some_id hfind]
    · intro p
      by_cases hp : p.id = id <;> simp [hp]
  · intro p hp hid
    unfold onMouseMove at hp
    obtain ⟨q, _, rfl⟩ := List.mem_map.1 hp
    by_cases hq : q.id = id
    · simp [hq]
    · simp [hq] at hid

/-- Scenario of C2: size (180, 50) resized by the pointer delta (-200, -200)
is clamped to (50, 30). -/
theorem handleResize_move_size_witness :
    findOverlay sampleState.overlays "a" = some sampleOverlay ∧
    findOverlay (onMouseMove (Gesture.resize "a" 300 300 180 50) ⟨100, 100⟩
        sampleState.overlays) "a"
      = some { sampleOverlay with size := { width := 50, height := 30 } } :=
  ⟨by decide,
    (handleResize_move_size sampleState "a" sampleOverlay ⟨300, 300⟩ ⟨100, 100⟩ []
      (by decide)).2.2.1⟩

/-! ## Unique ids -/

theorem run_cons_fst (st : State) (ev : Event) (evs : List Event) :
    (run st (ev :: evs)).1 = (run (step st ev).1 evs).1 := rfl

theorem addCreated_ids (st : State) (payload : CreatePayload) (response : Option String) :
    (∃ i, response = some i ∧ truthy i = true ∧
        ids (addCreated st payload response).1.overlays = ids st.overlays ++ [i]) ∨
    ((∀ i, response = some i → truthy i = false) ∧
        (addCreated st payload response).1.overlays = st.overlays) := by
  cases response with
  | none => right; simp [addCreated, createOverlayInDB]
  | some i =>
    cases hi : truthy i with
    | true => left; exact ⟨i, rfl, hi, by simp [addCreated, createOverlayInDB, hi, ids]⟩
    | false => right; simp [addCreated, createOverlayInDB, hi]

theorem step_ids_add_delete (st : State) (ev : Event) (h : ev.isAddOrDelete = true) :
    (∃ i, ev.appendedId = some i ∧ ids (step st ev).1.overlays = ids st.overlays ++ [i]) ∨
    (ev.appendedId = none ∧ (ids (step st ev).1.overlays).Sublist (ids st.overlays)) := by
  cases ev with
  | addText response =>
    rcases addCreated_ids st textPayload response with ⟨i, rfl, hi, hids⟩ | ⟨hno, hsame⟩
    · left; exact ⟨i, by simp [Event.appendedId, hi], hids⟩
    · right
      refine ⟨?_, ?_⟩
      · cases response with
        | none => rfl
        | some i => simp [Event.appendedId, hno i rfl]
      · simp only [step, addTextOverlay, hsame]
        exact List.Sublist.refl _
  | imageUpload file response =>
    cases file with
    | none =>
      right
      refine ⟨by cases response <;> rfl, ?_⟩
      simp only [step, handleImageUpload]
      exact List.Sublist.refl _
    | some url =>
      rcases addCreated_ids st (imagePayload url) response with ⟨i, rfl, hi, hids⟩ | ⟨hno, hsame⟩
      · left; exact ⟨i, by simp [Event.appendedId, hi], hids⟩
      · right
        refine ⟨?_, ?_⟩
        · cases response with
          | none => rfl
          | some i => simp [Event.appendedId, hno i rfl]
        · simp only [step, handleImageUpload, hsame]
          exact List.Sublist.refl _
  | deleteSelected ok =>
    right
    refine ⟨rfl, ?_⟩
    simp only [step, deleteSelected]
    split
    · exact List.Sublist.refl _
    · split
      · split
        · exact (List.filter_sublist _).map _
        · exact List.Sublist.refl _
      · exact List.Sublist.refl _
  | resetAll confirmed ok =>
    right
    refine ⟨rfl, ?_⟩
    cases confirmed <;> cases ok <;> simp [step, resetAllOverlays, ids]
  | overlaysLoaded data => simp [Event.isAddOrDelete] at h
  | overlaysLoadFailed => simp [Event.isAddOrDelete] at h
  | nativeAttach => simp [Event.isAddOrDelete] at h
  | hls e => simp [Event.isAddOrDelete] at h
  | mouseDownOverlay id e => simp [Event.isAddOrDelete] at h
  | mouseDownHandle id e => simp [Event.isAddOrDelete] at h
  | mouseMove e => simp [Event.isAddOrDelete] at h
  | mouseUp reruns => simp [Event.isAddOrDelete] at h
  | textChange value => simp [Event.isAddOrDelete] at h

theorem run_ids_nodup (evs : List Event) :
    ∀ st : State, (∀ e ∈ evs, e.isAddOrDelete = true) →
      (ids st.overlays).Nodup → (appendedIds evs).Nodup →
      (∀ i ∈ appendedIds evs, i ∉ ids st.overlays) →
      (ids (run st evs).1.overlays).Nodup := by
  induction evs with
  | nil => intro st _ hst _ _; exact hst
  | cons ev t ih =>
    intro st hops hst hnew hfresh
    rw [run_cons_fst]
    have ht : ∀ e ∈ t, e.isAddOrDelete = true := fun e he => hops e (List.mem_cons_of_mem _ he)
    rcases step_ids_add_delete st ev (hops ev (List.mem_cons_self _ _)) with
      ⟨i, hi, hids⟩ | ⟨hnone, hsub⟩
    · have happ : appendedIds (ev :: t) = i :: appendedIds t := by
        simp [appendedIds, List.filterMap_cons, hi]
      rw [happ] at hnew hfresh
      have hi_fresh : i ∉ ids st.overlays := hfresh i (List.mem_cons_self _ _)
      apply ih _ ht
      · rw [hids]
        exact List.Nodup.append hst (List.nodup_singleton i)
          (by
            intro x hx hx1
            rw [List.mem_singleton] at hx1
            exact hi_fresh (hx1 ▸ hx))
      · exact (List.nodup_cons.1 hnew).2
      · intro j hj
        rw [hids, List.mem_append, List.mem_singleton]
        rintro (hmem | rfl)
        · exact hfresh j (List.mem_cons_of_mem _ hj) hmem
        · exact (List.nodup_cons.1 hnew).1 hj
    · have happ : appendedIds (ev :: t) = appendedIds t := by
        simp [appendedIds, List.filterMap_cons, hnone]
      rw [happ] at hnew hfresh
      apply ih _ ht (hst.sublist hsub) hnew
      intro j hj hmem
      exact hfresh j hj (hsub.subset hmem)

/-- C5, as stated, fails: when the create call returns the id "a" twice, two
add-text operations from the empty store leave two overlays with id "a". -/
theorem duplicate_ids_after_equal_create_ids :
    (∀ e ∈ [Event.addText (some "a"), Event.addText (some "a")], e.isAddOrDelete = true) ∧
    ids (run State.init [Event.addText (some "a"), Event.addText (some "a")]).1.overlays
      = ["a", "a"] ∧
    ¬ (ids (run State.init
        [Event.addText (some "a"), Event.addText (some "a")]).1.overlays).Nodup := by
  decide

/-- C5, amended: for every sequence of add and delete operations from the empty
store in which the ids the create calls return for the appended overlays are
pairwise distinct, the store never contains two overlays with the same id. -/
theorem ids_nodup_of_distinct_create_ids (evs : List Event)
    (hops : ∀ e ∈ evs, e.isAddOrDelete = true)
    (hdistinct : (appendedIds evs).Nodup) :
    (ids (run State.init evs).1.overlays).Nodup :=
  run_ids_nodup evs State.init hops (by simp [State.init, ids]) hdistinct
    (by simp [State.init, ids])

/-- Scenario of C5: two adds with distinct ids, a delete and a third add. -/
theorem ids_nodup_of_distinct_create_ids_witness :
    (ids (run State.init
      [Event.addText (some "a"), Event.imageUpload (some "blob:1") (some "b"),
       Event.deleteSelected true, Event.addText (some "c")]).1.overlays).Nodup :=
  ids_nodup_of_distinct_create_ids
    [Event.addText (some "a"), Event.imageUpload (some "blob:1") (some "b"),
     Event.deleteSelected true, Event.addText (some "c")]
    (by decide) (by decide)

/-! ## Persisted overlays -/

theorem onMouseMove_persisted (g : Gesture) (ev : PointerEvent) (prev : List Overlay)
    (h : ∀ o ∈ prev, o.persisted = true) :
    ∀ o ∈ onMouseMove g ev prev, o.persisted = true := by
  intro o ho
  cases g with
  | drag id startX startY =>
    obtain ⟨q, hq, rfl⟩ := List.mem_map.1 ho
    by_cases hid : q.id = id <;> simp [hid, h q hq]
  | resize id sx sy sw sh =>
    obtain ⟨q, hq, rfl⟩ := List.mem_map.1 ho
    by_cases hid : q.id = id <;> simp [hid, h q hq]

theorem mouseMoveAll_persisted (gs : List Gesture) (ev : PointerEvent) :
    ∀ prev : List Overlay, (∀ o ∈ prev, o.persisted = true) →
      ∀ o ∈ mouseMoveAll gs ev prev, o.persisted = true := by
  induction gs with
  | nil => intro prev h; exact h
  | cons g t ih =>
    intro prev h
    exact ih _ (onMouseMove_persisted g ev prev h)

theorem onMouseUp_fst (g : Gesture) (prev : List Overlay) : (onMouseUp g prev).1 = prev := by
  cases g <;> simp only [onMouseUp] <;> split <;> try split
  all_goals rfl

theorem mouseUpAll_fst (gs : List Gesture) (reruns : List (List Overlay)) :
    ∀ prev : List Overlay, (mouseUpAll gs reruns prev).1 = prev := by
  induction gs with
  | nil => intro prev; rfl
  | cons g t ih =>
    intro prev
    simp only [mouseUpAll, onMouseUpRuns, ih, onMouseUp_fst]

theorem addCreated_persisted (st : State) (payload : CreatePayload) (response : Option String)
    (h : ∀ o ∈ st.overlays, o.persisted = true) :
    ∀ o ∈ (addCreated st payload response).1.overlays, o.persisted = true := by
  cases response with
  | none => simpa [addCreated, createOverlayInDB] using h
  | some i =>
    cases hi : truthy i with
    | false => simpa [addCreated, createOverlayInDB, hi] using h
    | true =>
      intro o ho
      simp only [addCreated, createOverlayInDB, hi, if_true, List.mem_append,
        List.mem_singleton] at ho
      rcases ho with ho | rfl
      · exact h o ho
      · rfl

theorem step_persisted (st : State) (ev : Event)
    (h : ∀ o ∈ st.overlays, o.persisted = true) :
    ∀ o ∈ (step st ev).1.overlays, o.persisted = true := by
  cases ev with
  | overlaysLoaded data =>
    intro o ho
    simp only [step, overlaysLoaded] at ho
    obtain ⟨r, _, rfl⟩ := List.mem_map.1 ho
    rfl
  | overlaysLoadFailed => exact h
  | nativeAttach => exact h
  | hls e => exact h
  | addText response => exact addCreated_persisted st textPayload response h
  | imageUpload file response =>
    cases file with
    | none => exact h
    | some url => exact addCreated_persisted st (imagePayload url) response h
  | deleteSelected ok =>
    intro o ho
    simp only [step, deleteSelected] at ho
    split at ho
    · exact h o ho
    · split at ho
      · split at ho
        · exact h o (List.mem_of_mem_filter ho)
        · exact h o ho
      · exact h o ho
  | resetAll confirmed ok =>
    intro o ho
    cases confirmed <;> cases ok <;> simp [step, resetAllOverlays] at ho
    all_goals exact h o ho
  | mouseDownOverlay id e =>
    intro o ho
    simp only [step, handleDrag] at ho
    split at ho <;> exact h o ho
  | mouseDownHandle id e =>
    intro o ho
    simp only [step, handleResize] at ho
    split at ho <;> exact h o ho
  | mouseMove e => exact mouseMoveAll_persisted st.listeners e st.overlays h
  | mouseUp reruns =>
    intro o ho
    simp only [step, mouseUpAll_fst] at ho
    exact h o ho
  | textChange value =>
    intro o ho
    simp only [step, onChangeText] at ho
    split at ho
    · exact h o ho
    · split at ho
      · exact h o ho
      · split at ho
        · obtain ⟨q, hq, rfl⟩ := List.mem_map.1 ho
          split
          · exact h q hq
          · exact h q hq
        · exact h o ho

theorem run_persisted (evs : List Event) :
    ∀ st : State, (∀ o ∈ st.overlays, o.persisted = true) →
      ∀ o ∈ (run st evs).1.overlays, o.persisted = true := by
  induction evs with
  | nil => intro st h; exact h
  | cons ev t ih =>
    intro st h
    rw [run_cons_fst]
    exact ih _ (step_persisted st ev h)

/-- Every overlay of a reachable state has `persisted = true`: the initial load
and both add handlers set the flag and no handler clears it. -/
theorem reachable_all_persisted (st : State) (hreach : Reachable st) :
    ∀ o ∈ st.overlays, o.persisted = true := by
  obtain ⟨evs, rfl⟩ := hreach
  exact run_persisted evs State.init (by simp [State.init])

/-- The pointer-up handlers test the flag themselves: in any store, reachable
or not, a call they issue is for an overlay the lookup finds with
`persisted = true`. -/
theorem onMouseUp_calls_guarded (g : Gesture) (prev : List Overlay) (c : Call)
    (hc : c ∈ (onMouseUp g prev).2) :
    ∃ id o, c.target = some id ∧ findOverlay prev id = some o ∧ o.persisted = true := by
  cases g with
  | drag id startX startY =>
    simp only [onMouseUp] at hc
    split at hc
    · rename_i updated hfind
      split at hc
      · rename_i hp
        rw [List.mem_singleton] at hc
        exact ⟨id, updated, by rw [hc]; rfl, hfind, hp⟩
      · simp at hc
    · simp at hc
  | resize id sx sy sw sh =>
    simp only [onMouseUp] at hc
    split at hc
    · rename_i updated hfind
      split at hc
      · rename_i hp
        rw [List.mem_singleton] at hc
        exact ⟨id, updated, by rw [hc]; rfl, hfind, hp⟩
      · simp at hc
    · simp at hc

/-- The text editor, `deleteSelected` and `resetAllOverlays` do not test the
flag: in a store (not a reachable one) that holds an overlay with
`persisted = false`, each of them issues a call for it. -/
theorem unguarded_handlers_on_unpersisted :
    onChangeText { unpersistedState with selectedId := some "u" } "x"
      = ({ unpersistedState with
            overlays := [{ unpersistedOverlay with content := "x" }], selectedId := some "u" },
          [Call.put "u" (UpdateData.content "x")]) ∧
    (deleteSelected { unpersistedState with selectedId := some "u" } true).2
      = [Call.delete "u"] ∧
    (resetAllOverlays unpersistedState true true).2 = [Call.delete "u"] := by
  decide

/-- C4: in every reachable state and for every event the component reacts to
(among them drag end, resize end, text edit, delete-selected and reset-all), an
overlay of the store that an issued `PUT` or `DELETE` call is addressed to has
`persisted = true`; so no overlay with `persisted = false` triggers such a call. -/
theorem calls_target_persisted (st : State) (ev : Event) (hreach : Reachable st) :
    ∀ c ∈ (step st ev).2, ∀ o ∈ st.overlays, c.target = some o.id → o.persisted = true :=
  fun _ _ o ho _ => reachable_all_persisted st hreach o ho

/-- Scenario of C4: after the load and a click on "a", a text edit issues a
`PUT` for "a", which is persisted. -/
theorem calls_target_persisted_witness :
    Reachable selectedLoaded ∧
    Call.put "a" (UpdateData.content "x") ∈ (step selectedLoaded (Event.textChange "x")).2 ∧
    normalize { _id := "a", type := some "text", content := some "one",
                position := none, size := none } ∈ selectedLoaded.overlays ∧
    (normalize { _id := "a", type := some "text", content := some "one",
                 position := none, size := none }).persisted = true :=
  ⟨⟨[Event.overlaysLoaded sampleRecords, Event.mouseDownOverlay "a" ⟨0, 0⟩], rfl⟩,
    by decide, by decide,
    calls_target_persisted selectedLoaded (Event.textChange "x")
      ⟨[Event.overlaysLoaded sampleRecords, Event.mouseDownOverlay "a" ⟨0, 0⟩], rfl⟩
      (Call.put "a" (UpdateData.content "x")) (by decide)
      (normalize { _id := "a", type := some "text", content := some "one",
                   position := none, size := none })
      (by decide) (by decide)⟩

/-! ## Pointer-up -/

theorem run_cons (st : State) (ev : Event) (evs : List Event) :
    run st (ev :: evs)
      = ((run (step st ev).1 evs).1, (step st ev).2 ++ (run (step st ev).1 evs).2) := rfl

theorem onMouseUp_found_persisted (prev : List Overlay) (id : String) (u : Overlay)
    (startX startY sx sy sw sh : Int)
    (hfind : findOverlay prev id = some u) (hpers : u.persisted = true) :
    onMouseUp (Gesture.drag id startX startY) prev
      = (prev, [Call.put id (UpdateData.position u.position)]) ∧
    onMouseUp (Gesture.resize id sx sy sw sh) prev
      = (prev, [Call.put id (UpdateData.size u.size)]) := by
  simp [onMouseUp, hfind, hpers]

theorem mouseUpAll_calls_mem (g : Gesture) (reruns : List (List Overlay)) (gs : List Gesture)
    (hg : g ∈ gs) (prev : List Overlay) (c : Call) (hc : c ∈ (onMouseUp g prev).2) :
    c ∈ (mouseUpAll gs reruns prev).2 := by
  induction gs with
  | nil => simp at hg
  | cons g1 t ih =>
    simp only [mouseUpAll, onMouseUpRuns, onMouseUp_fst]
    rcases List.mem_cons.1 hg with rfl | ht
    · exact List.mem_append_left _ (List.mem_append_right _ hc)
    · exact List.mem_append_right _ (ih ht)

theorem step_mouseUp_state (st : State) (reruns : List (List Overlay)) :
    (step st (Event.mouseUp reruns)).1 = { st with listeners := [] } := by
  simp [step, mouseUpAll_fst]

theorem onMouseUp_drag_calls (id : String) (startX startY : Int) (s : List Overlay) (c : Call)
    (hc : c ∈ (onMouseUp (Gesture.drag id startX startY) s).2) :
    ∃ p, c = Call.put id (UpdateData.position p) := by
  simp only [onMouseUp] at hc
  split at hc
  · rename_i updated _
    split at hc
    · rw [List.mem_singleton] at hc
      exact ⟨updated.position, hc⟩
    · simp at hc
  · simp at hc

theorem rerunCalls_drag (id : String) (startX startY : Int) (reruns : List (List Overlay))
    (c : Call) (hc : c ∈ rerunCalls (Gesture.drag id startX startY) reruns) :
    ∃ p, c = Call.put id (UpdateData.position p) := by
  induction reruns with
  | nil => simp [rerunCalls] at hc
  | cons s ss ih =>
    simp only [rerunCalls, List.mem_append] at hc
    rcases hc with hc | hc
    · exact onMouseUp_drag_calls id startX startY s c hc
    · exact ih hc

/-- C3, as stated, fails.  After a pointer-down on the persisted overlay "a" and
a move, a pointer-up whose updater React runs a second time, on the store it
rendered before the move, issues two `PUT` calls, the first with the position
(100, 100) of the pointer-down.  And when the listeners of an earlier
pointer-down on "a" are still installed, one pointer-up issues two `PUT` calls
for "a" although every updater runs once. -/
theorem gesture_issues_two_updates :
    normalize sampleRecord = sampleOverlay ∧
    (run State.init
      [Event.overlaysLoaded [sampleRecord], Event.mouseDownOverlay "a" ⟨110, 110⟩,
       Event.mouseMove ⟨160, 140⟩, Event.mouseUp [[sampleOverlay]]]).2
      = [Call.put "a" (UpdateData.position { x := 100, y := 100 }),
         Call.put "a" (UpdateData.position { x := 150, y := 130 })] ∧
    (run State.init
      [Event.overlaysLoaded [sampleRecord], Event.mouseDownOverlay "a" ⟨110, 110⟩,
       Event.mouseDownOverlay "a" ⟨110, 110⟩, Event.mouseMove ⟨160, 140⟩, Event.mouseUp []]).2
      = [Call.put "a" (UpdateData.position { x := 150, y := 130 }),
         Call.put "a" (UpdateData.position { x := 150, y := 130 })] := by
  decide

/-- C3, amended: each run of the updater of a pointer-up handler, on a store in
which the lookup finds the gesture's overlay `u` with `persisted = true`, issues
exactly one call, a `PUT` for the gesture's id whose body holds only
`u.position` (drag) or only `u.size` (resize) as that store has them, whatever
anchor the gesture recorded at pointer-down, and returns the store unchanged.
Hence a pointer-up, in any state in which the gesture's listeners are installed
and however often the updaters run, issues at least one such call with the
geometry the current store holds, and leaves the store as it is. -/
theorem pointer_up_update_per_run (id : String) :
    (∀ (prev : List Overlay) (u : Overlay) (startX startY : Int),
      findOverlay prev id = some u → u.persisted = true →
      onMouseUp (Gesture.drag id startX startY) prev
        = (prev, [Call.put id (UpdateData.position u.position)])) ∧
    (∀ (prev : List Overlay) (u : Overlay) (sx sy sw sh : Int),
      findOverlay prev id = some u → u.persisted = true →
      onMouseUp (Gesture.resize id sx sy sw sh) prev
        = (prev, [Call.put id (UpdateData.size u.size)])) ∧
    (∀ (st : State) (u : Overlay) (reruns : List (List Overlay)) (startX startY : Int),
      Gesture.drag id startX startY ∈ st.listeners →
      findOverlay st.overlays id = some u → u.persisted = true →
      Call.put id (UpdateData.position u.position) ∈ (step st (Event.mouseUp reruns)).2) ∧
    (∀ (st : State) (u : Overlay) (reruns : List (List Overlay)) (sx sy sw sh : Int),
      Gesture.resize id sx sy sw sh ∈ st.listeners →
      findOverlay st.overlays id = some u → u.persisted = true →
      Call.put id (UpdateData.size u.size) ∈ (step st (Event.mouseUp reruns)).2) ∧
    (∀ (st : State) (reruns : List (List Overlay)),
      (step st (Event.mouseUp reruns)).1.overlays = st.overlays) := by
  refine ⟨?_, ?_, ?_, ?_, ?_⟩
  · intro prev u startX startY hfind hpers
    exact (onMouseUp_found_persisted prev id u startX startY 0 0 0 0 hfind hpers).1
  · intro prev u sx sy sw sh hfind hpers
    exact (onMouseUp_found_persisted prev id u 0 0 sx sy sw sh hfind hpers).2
  · intro st u reruns startX startY hg hfind hpers
    apply mouseUpAll_calls_mem _ reruns st.listeners hg st.overlays
    rw [(onMouseUp_found_persisted st.overlays id u startX startY 0 0 0 0 hfind hpers).1]
    exact List.mem_singleton.2 rfl
  · intro st u reruns sx sy sw sh hg hfind hpers
    apply mouseUpAll_calls_mem _ reruns st.listeners hg st.overlays
    rw [(onMouseUp_found_persisted st.overlays id u 0 0 sx sy sw sh hfind hpers).2]
    exact List.mem_singleton.2 rfl
  · intro st reruns
    rw [step_mouseUp_state]

/-- Scenario of C3: at the pointer-up that ends the drag of C1, whether or not
the updater is run a second time on the store before the move, the call with the
moved position (150, 130) is issued and the store keeps that position. -/
theorem pointer_up_update_per_run_witness :
    Gesture.drag "a" 10 10 ∈ draggedSample.listeners ∧
    findOverlay draggedSample.overlays "a"
      = some { sampleOverlay with position := { x := 150, y := 130 } } ∧
    Call.put "a" (UpdateData.position { x := 150, y := 130 })
      ∈ (step draggedSample (Event.mouseUp [[sampleOverlay]])).2 ∧
    onMouseUp (Gesture.drag "a" 10 10) draggedSample.overlays
      = (draggedSample.overlays, [Call.put "a" (UpdateData.position { x := 150, y := 130 })]) ∧
    (step draggedSample (Event.mouseUp [[sampleOverlay]])).1.overlays
      = draggedSample.overlays :=
  ⟨by decide, by decide,
    (pointer_up_update_per_run "a").2.2.1 draggedSample
      { sampleOverlay with position := { x := 150, y := 130 } } [[sampleOverlay]] 10 10
      (by decide) (by decide) (by decide),
    (pointer_up_update_per_run "a").1 draggedSample.overlays
      { sampleOverlay with position := { x := 150, y := 130 } } 10 10 (by decide) (by decide),
    (pointer_up_update_per_run "a").2.2.2.2 draggedSample [[sampleOverlay]]⟩

/-! ## Selecting by a click -/

/-- C10, as stated, fails: a pointer-down on the persisted overlay of
`sampleState` followed at once by pointer-up issues a `PUT` with the unchanged
position, once when the updater runs once and twice when React runs it a second
time on the same store. -/
theorem click_issues_update :
    sampleState.listeners = [] ∧ sampleOverlay ∈ sampleState.overlays ∧
    (run sampleState [Event.mouseDownOverlay "a" ⟨110, 110⟩, Event.mouseUp []]).2
      = [Call.put "a" (UpdateData.position { x := 100, y := 100 })] ∧
    (run sampleState [Event.mouseDownOverlay "a" ⟨110, 110⟩, Event.mouseUp []]).2 ≠ [] ∧
    (run sampleState
        [Event.mouseDownOverlay "a" ⟨110, 110⟩, Event.mouseUp [sampleState.overlays]]).2
      = [Call.put "a" (UpdateData.position { x := 100, y := 100 }),
         Call.put "a" (UpdateData.position { x := 100, y := 100 })] := by
  decide

/-- C10, amended: in an idle state, a pointer-down on an overlay that the store
lookup finds, followed by pointer-up with no move in between, sets the selection
to that id and changes nothing else in the state, so no overlay's geometry
changes.  Every call it issues is a `PUT` for that id whose body holds only a
position.  When the overlay is persisted at least one such call is issued and
carries the overlay's unchanged position: each run of the pointer-up updater on
the store issues exactly that one call.  A run of the updater on the store
issues no call when the overlay is not persisted. -/
theorem click_selects_and_persists (st : State) (id : String) (o : Overlay) (e : PointerEvent)
    (reruns : List (List Overlay))
    (hidle : st.listeners = []) (hfind : findOverlay st.overlays id = some o) :
    (run st [Event.mouseDownOverlay id e, Event.mouseUp reruns]).1
      = { st with selectedId := some id } ∧
    (∀ c ∈ (run st [Event.mouseDownOverlay id e, Event.mouseUp reruns]).2,
      ∃ p, c = Call.put id (UpdateData.position p)) ∧
    (o.persisted = true →
      Call.put id (UpdateData.position o.position)
        ∈ (run st [Event.mouseDownOverlay id e, Event.mouseUp reruns]).2) ∧
    onMouseUp (Gesture.drag id (e.clientX - o.position.x) (e.clientY - o.position.y)) st.overlays
      = (st.overlays,
          if o.persisted then [Call.put id (UpdateData.position o.position)] else []) := by
  have hdown : handleDrag st id e
      = { st with
          selectedId := some id
          listeners :=
            [Gesture.drag id (e.clientX - o.position.x) (e.clientY - o.position.y)] } := by
    simp [handleDrag, hfind, hidle]
  have hrun : run st [Event.mouseDownOverlay id e, Event.mouseUp reruns]
      = ({ st with selectedId := some id },
          rerunCalls (Gesture.drag id (e.clientX - o.position.x) (e.clientY - o.position.y))
              reruns ++
            (onMouseUp (Gesture.drag id (e.clientX - o.position.x) (e.clientY - o.position.y))
              st.overlays).2) := by
    simp [run, step, hdown, mouseUpAll, onMouseUpRuns, onMouseUp_fst, hidle]
  have hup : onMouseUp
      (Gesture.drag id (e.clientX - o.position.x) (e.clientY - o.position.y)) st.overlays
      = (st.overlays,
          if o.persisted then [Call.put id (UpdateData.position o.position)] else []) := by
    cases hp : o.persisted <;> simp [onMouseUp, hfind, hp]
  refine ⟨?_, ?_, ?_, hup⟩
  · rw [hrun]
  · intro c hc
    rw [hrun] at hc
    rcases List.mem_append.1 hc with hc | hc
    · exact rerunCalls_drag _ _ _ reruns c hc
    · exact onMouseUp_drag_calls _ _ _ st.overlays c hc
  · intro hp
    rw [hrun, hup, hp]
    exact List.mem_append_right _ (List.mem_singleton.2 rfl)

/-- Scenario of C10: the click on the overlay of `sampleState`, with the updater
run a second time on the same store. -/
theorem click_selects_and_persists_witness :
    sampleState.listeners = [] ∧ findOverlay sampleState.overlays "a" = some sampleOverlay ∧
    (run sampleState
        [Event.mouseDownOverlay "a" ⟨110, 110⟩, Event.mouseUp [sampleState.overlays]]).1
      = { sampleState with selectedId := some "a" } ∧
    Call.put "a" (UpdateData.position { x := 100, y := 100 })
      ∈ (run sampleState
          [Event.mouseDownOverlay "a" ⟨110, 110⟩, Event.mouseUp [sampleState.overlays]]).2 :=
  ⟨by decide, by decide,
    (click_selects_and_persists sampleState "a" sampleOverlay ⟨110, 110⟩
      [sampleState.overlays] (by decide) (by decide)).1,
    (click_selects_and_persists sampleState "a" sampleOverlay ⟨110, 110⟩
      [sampleState.overlays] (by decide) (by decide)).2.2.1 (by decide)⟩

/-! ## Add, delete, reset -/

/-- C6: `addTextOverlay` issues one `POST`.  When the create call returns an id
(a value that passes the test `if (id)`), the store is the old store with one
overlay appended at the end, carrying that id, type "text", content
"New Text Overlay", position (50, 50), size (180, 50) and `persisted = true`,
and the selection is that id.  When the create call fails (`null` from the
`catch` branch, or no value passing the test) store and selection are unchanged.
From the empty store a successful add leaves exactly one overlay. -/
theorem addTextOverlay_outcome (st : State) :
    (∀ id : String, truthy id = true →
      addTextOverlay st (some id)
        = ({ st with
              overlays := st.overlays ++
                [{ id := id, type := "text", content := "New Text Overlay",
                   position := { x := 50, y := 50 }, size := { width := 180, height := 50 },
                   persisted := true }]
              selectedId := some id },
            [Call.post textPayload])) ∧
    addTextOverlay st none = (st, [Call.post textPayload]) ∧
    (∀ id : String, truthy id = false →
      addTextOverlay st (some id) = (st, [Call.post textPayload])) ∧
    (∀ id : String, truthy id = true →
      (addTextOverlay State.init (some id)).1.overlays.length = 1) := by
  refine ⟨?_, rfl, ?_, ?_⟩
  · intro id hid
    simp [addTextOverlay, addCreated, createOverlayInDB, hid, textPayload]
  · intro id hid
    simp [addTextOverlay, addCreated, createOverlayInDB, hid]
  · intro id hid
    simp [addTextOverlay, addCreated, createOverlayInDB, hid, State.init]

/-- Scenario of C6: add-text on the empty store with the returned id "a". -/
theorem addTextOverlay_outcome_witness :
    truthy "a" = true ∧
    addTextOverlay State.init (some "a")
      = ({ State.init with
            overlays :=
              [{ id := "a", type := "text", content := "New Text Overlay",
                 position := { x := 50, y := 50 }, size := { width := 180, height := 50 },
                 persisted := true }]
            selectedId := some "a" },
          [Call.post textPayload]) ∧
    (addTextOverlay State.init (some "a")).1.overlays.length = 1 :=
  ⟨by decide, (addTextOverlay_outcome State.init).1 "a" (by decide),
    (addTextOverlay_outcome State.init).2.2.2 "a" (by decide)⟩

/-- C7: with an id selected (a truthy `selectedId`, so that the `DELETE` call
is issued) and the call resolving, `deleteSelected` issues that one call, keeps
exactly the overlays whose id differs from the selected one, in their original
order, and sets the selection to `null`. -/
theorem deleteSelected_success (st : State) (sid : String)
    (hsel : st.selectedId = some sid) (htruthy : truthy sid = true) :
    deleteSelected st true
      = ({ st with overlays := st.overlays.filter (fun o => o.id != sid), selectedId := none },
          [Call.delete sid]) ∧
    (deleteSelected st true).1.selectedId = none ∧
    (deleteSelected st true).1.overlays.Sublist st.overlays ∧
    (∀ o, o ∈ (deleteSelected st true).1.overlays ↔ (o ∈ st.overlays ∧ o.id ≠ sid)) := by
  have h : deleteSelected st true
      = ({ st with overlays := st.overlays.filter (fun o => o.id != sid), selectedId := none },
          [Call.delete sid]) := by
    simp [deleteSelected, hsel, htruthy]
  refine ⟨h, ?_, ?_, ?_⟩
  · rw [h]
  · rw [h]
    exact List.filter_sublist _
  · intro o
    rw [h]
    simp [List.mem_filter]

/-- Scenario of C7: deleting the selected overlay "b" of three. -/
theorem deleteSelected_success_witness :
    ids (deleteSelected { threeOverlays with selectedId := some "b" } true).1.overlays
      = ["a", "c"] ∧
    (deleteSelected { threeOverlays with selectedId := some "b" } true).1.selectedId = none ∧
    (deleteSelected { threeOverlays with selectedId := some "b" } true).2 = [Call.delete "b"] := by
  have h := (deleteSelected_success { threeOverlays with selectedId := some "b" } "b"
    rfl (by decide)).1
  rw [h]
  decide

/-- C8: with the confirmation declined `resetAllOverlays` changes nothing and
issues no call, whatever the store; with the confirmation accepted and the
calls resolving it issues one `DELETE` per overlay of the store, for that
overlay's id and in store order, empties the store and clears the selection.
On the store of three overlays these are the calls for "a", "b" and "c". -/
theorem resetAllOverlays_outcome (st : State) (ok : Bool) :
    resetAllOverlays st false ok = (st, []) ∧
    resetAllOverlays st true true
      = ({ st with overlays := [], selectedId := none },
          st.overlays.map (fun o => Call.delete o.id)) ∧
    threeOverlays.overlays.length = 3 ∧
    resetAllOverlays threeOverlays false ok = (threeOverlays, []) ∧
    resetAllOverlays { threeOverlays with selectedId := some "b" } true true
      = ({ threeOverlays with overlays := [], selectedId := none },
          [Call.delete "a", Call.delete "b", Call.delete "c"]) := by
  refine ⟨?_, ?_, ?_, ?_, ?_⟩
  · simp [resetAllOverlays]
  · simp [resetAllOverlays]
  · decide
  · simp [resetAllOverlays]
  · decide

/-! ## Stream status -/

/-- C9, as stated, fails: after a fatal error has set the status to `error`, a
manifest-parsed event sets it to `live`. -/
theorem error_left_by_manifest :
    runHls StreamStatus.connecting [HlsEvent.error true] = StreamStatus.error ∧
    runHls StreamStatus.connecting [HlsEvent.error true, HlsEvent.manifestParsed]
      = StreamStatus.live ∧
    onHlsEvent StreamStatus.error HlsEvent.manifestParsed ≠ StreamStatus.error := by
  decide

/-- C9, amended: fatal and non-fatal error events never leave `error`: for every
sequence of events without a manifest-parsed event, a status that is `error`
stays `error`. -/
theorem error_stays_without_manifest (es : List HlsEvent)
    (h : ∀ e ∈ es, e ≠ HlsEvent.manifestParsed) :
    runHls StreamStatus.error es = StreamStatus.error := by
  unfold runHls
  induction es with
  | nil => rfl
  | cons e t ih =>
    have ht : ∀ x ∈ t, x ≠ HlsEvent.manifestParsed := fun x hx =>
      h x (List.mem_cons_of_mem _ hx)
    cases e with
    | manifestParsed => exact absurd rfl (h _ (List.mem_cons_self _ _))
    | error fatal =>
      cases fatal <;> simpa [List.foldl_cons, onHlsEvent] using ih ht

/-- Scenario of C9: a non-fatal and a fatal error after the status is `error`. -/
theorem error_stays_without_manifest_witness :
    runHls StreamStatus.error [HlsEvent.error false, HlsEvent.error true]
      = StreamStatus.error :=
  error_stays_without_manifest [HlsEvent.error false, HlsEvent.error true] (by decide)

end OverlayApp
